import Mathlib

/-!
Verification of the provider-orchestration core of the repository:
the provider client (src/main/client.ts), the controller-side registry and
IPC handlers (src/main/main.ts), and the UI-side sync bridge
(src/preload/preload.ts), shallowly embedded as executable Lean functions.
JavaScript objects are modelled as ordered association lists, JSON values as
an inductive type, 32-bit JS integer arithmetic as Int with explicit
wrap-around, and asynchronous or I/O outcomes (fetch results, connect
failures, timeouts) as explicit oracle parameters.
-/

/-! ## JSON values and serialization -/

/-- JSON values as produced and consumed over the IPC boundary.
Objects keep their field order, matching JavaScript object semantics. -/
inductive Json where
  | null : Json
  | bool : Bool → Json
  | num : Int → Json
  | str : String → Json
  | arr : List Json → Json
  | obj : List (String × Json) → Json

/-- Quote a string for JSON output. The source data (provider names, urls,
commands) contains no characters that need escaping. -/
def quoteStr (s : String) : String :=
  "\"" ++ s ++ "\""

mutual

/-- Compact serialization, the semantics of JSON.stringify(v). -/
def jsonToString : Json → String
  | Json.null => "null"
  | Json.bool true => "true"
  | Json.bool false => "false"
  | Json.num n => toString n
  | Json.str s => quoteStr s
  | Json.arr xs => "[" ++ arrToString xs ++ "]"
  | Json.obj fs => "\x7b" ++ objToString fs ++ "\x7d"

def arrToString : List Json → String
  | [] => ""
  | [x] => jsonToString x
  | x :: y :: xs => jsonToString x ++ "," ++ arrToString (y :: xs)

def objToString : List (String × Json) → String
  | [] => ""
  | [(k, v)] => quoteStr k ++ ":" ++ jsonToString v
  | (k, v) :: f :: fs =>
      quoteStr k ++ ":" ++ jsonToString v ++ "," ++ objToString (f :: fs)

end

/-- Indentation of n spaces for pretty serialization. -/
def indentStr (n : Nat) : String :=
  String.join (List.replicate n " ")

mutual

/-- Pretty serialization at indentation depth d: the semantics of
JSON.stringify(v, null, 2), used by the sync bridge before hashing. -/
def jsonToString2 : Nat → Json → String
  | _, Json.null => "null"
  | _, Json.bool true => "true"
  | _, Json.bool false => "false"
  | _, Json.num n => toString n
  | _, Json.str s => quoteStr s
  | _, Json.arr [] => "[]"
  | d, Json.arr (x :: xs) =>
      "[\n" ++ arrToString2 (d + 2) (x :: xs) ++ "\n" ++ indentStr d ++ "]"
  | _, Json.obj [] => "\x7b\x7d"
  | d, Json.obj (f :: fs) =>
      "\x7b\n" ++ objToString2 (d + 2) (f :: fs) ++ "\n" ++ indentStr d ++ "\x7d"

def arrToString2 : Nat → List Json → String
  | _, [] => ""
  | d, [x] => indentStr d ++ jsonToString2 d x
  | d, x :: y :: xs =>
      indentStr d ++ jsonToString2 d x ++ ",\n" ++ arrToString2 d (y :: xs)

def objToString2 : Nat → List (String × Json) → String
  | _, [] => ""
  | d, [(k, v)] => indentStr d ++ quoteStr k ++ ": " ++ jsonToString2 d v
  | d, (k, v) :: f :: fs =>
      indentStr d ++ quoteStr k ++ ": " ++ jsonToString2 d v ++ ",\n" ++
        objToString2 d (f :: fs)

end

/-- JSON.stringify(v, null, 2), as used on the configuration document. -/
def jsonStringifyPretty (j : Json) : String :=
  jsonToString2 0 j

/-- Field access on a JSON object; none on non-objects or missing keys. -/
def jsonGet (j : Json) (k : String) : Option Json :=
  match j with
  | Json.obj fs => fs.lookup k
  | _ => none

/-- String-valued field access. -/
def jsonGetStr (j : Json) (k : String) : Option String :=
  match jsonGet j k with
  | some (Json.str s) => some s
  | _ => none

/-- Object-valued field access (the typeof x === object checks). -/
def jsonGetObj (j : Json) (k : String) : Option (List (String × Json)) :=
  match jsonGet j k with
  | some (Json.obj fs) => some fs
  | _ => none

/-- Object.keys of a JSON value. -/
def jsonKeys (j : Json) : List String :=
  match j with
  | Json.obj fs => fs.map Prod.fst
  | _ => []

/-! ## The configuration hash (preload.ts, calculateConfigHash) -/

/-- JavaScript ToInt32: wrap an integer into the signed 32-bit range,
as the << and & operators do. -/
def toInt32 (n : Int) : Int :=
  (n + 2147483648) % 4294967296 - 2147483648

/-- One step of the rolling hash: a = ((a << 5) - a) + charCode; a = a & a. -/
def hashStep (a : Int) (c : Char) : Int :=
  toInt32 (toInt32 (a * 32) - a + (c.toNat : Int))

/-- calculateConfigHash: the order-sensitive rolling hash of the serialized
configuration, converted to its decimal string as in the source. -/
def calculateConfigHash (s : String) : String :=
  toString (s.data.foldl hashStep 0)

/-! ## Provider client (src/main/client.ts) -/

/-- A provider configuration entry (types.ts ServerConfig): optional
transport-kind marker, url for HTTP providers, command/args/env for local
providers. -/
structure ServerConfig where
  type : Option String
  url : Option String
  command : Option String
  args : Option (List String)
  env : Option (List (String × String))
deriving DecidableEq

/-- The client produced by a successful initialization: an HttpClient
wrapping a base url, or a local subprocess client. -/
inductive InitializedClient where
  | http : String → InitializedClient
  | loc : String → String → List String → InitializedClient
deriving DecidableEq

deriving instance DecidableEq for Except

/-- Outcomes of the connect() calls, which hit the network or spawn a
subprocess: an oracle for the embedding. -/
structure ConnectOracle where
  httpConnect : Except String Unit
  localConnect : Except String Unit
deriving DecidableEq

/-- initializeClient (client.ts, lines 120-185): pick the transport from the
explicit type field, defaulting by presence of url; the http branch is taken
when the type is http or sse or when a url is present; the local branch
requires a command; otherwise fail. Connect failures propagate as errors. -/
def initializeClient (name : String) (cfg : ServerConfig) (o : ConnectOracle) :
    Except String InitializedClient :=
  let serverType := cfg.type.getD (if cfg.url.isSome then "http" else "local")
  if serverType = "http" ∨ serverType = "sse" ∨ cfg.url.isSome then
    match cfg.url with
    | none => Except.error ("HTTP/SSE server " ++ name ++ " must have a url property")
    | some u =>
      match o.httpConnect with
      | Except.error e => Except.error e
      | Except.ok _ => Except.ok (InitializedClient.http u)
  else if serverType = "local" ∨ cfg.command.isSome then
    match cfg.command with
    | none => Except.error ("Local MCP server " ++ name ++ " must have a command property")
    | some cmd =>
      match o.localConnect with
      | Except.error e => Except.error e
      | Except.ok _ => Except.ok (InitializedClient.loc name cmd (cfg.args.getD []))
  else
    Except.error ("Server " ++ name ++ " must have either url or command property, or specify type as local or http")

/-! ## Registry and capability dispatcher (src/main/main.ts) -/

/-- A registry entry (feature / CapabilityDescriptor): the provider name,
the per-capability map of action to bound IPC identifier, the transport-kind
marker and transport fields, and the stored config. -/
structure Feature where
  name : String
  tools : List (String × String)
  prompts : List (String × String)
  resources : List (String × String)
  type : Option String
  url : Option String
  command : Option String
  args : Option (List String)
  config : Option ServerConfig
deriving DecidableEq

/-- The persisted configuration document (config.json): mcpServers maps
provider name to its config object. -/
structure ConfigDoc where
  mcpServers : List (String × ServerConfig)
deriving DecidableEq

/-- Controller state: the features list (registry), the persisted
configuration document (none when config.json is unreadable), and the set of
IPC event names with a bound handler, in registration order. -/
structure MainState where
  features : List Feature
  configDoc : Option ConfigDoc
  bound : List String
deriving DecidableEq

/-- The fixed capability table of registerIpcHandlers. -/
def capabilityActions : List (String × List String) :=
  [("tools", ["list", "call"]),
   ("prompts", ["list", "get"]),
   ("resources", ["list", "read", "templates/list"])]

/-- The externally addressable identifier for (provider, type, action). -/
def eventName (name t a : String) : String :=
  name ++ "-" ++ t ++ "/" ++ a

/-- All identifiers registerIpcHandlers binds for one provider, in
registration order. -/
def allEventNames (name : String) : List String :=
  capabilityActions.flatMap (fun p => p.2.map (eventName name p.1))

/-- Update an association list at a key, JavaScript object-assignment
semantics: an existing key keeps its position, a new key is appended. -/
def setAssoc {α : Type} (m : List (String × α)) (k : String) (v : α) :
    List (String × α) :=
  if (m.lookup k).isSome then
    m.map (fun p => if p.1 == k then (k, v) else p)
  else
    m ++ [(k, v)]

/-- Remove a key from an association list (the JavaScript delete operator). -/
def removeAssoc {α : Type} (m : List (String × α)) (k : String) :
    List (String × α) :=
  m.filter (fun p => p.1 ≠ k)

/-- The action-to-identifier map built for one capability type. -/
def actionMap (name t : String) : List (String × String) :=
  ((capabilityActions.lookup t).getD []).map (fun a => (a, eventName name t a))

/-- registerIpcHandlers (main.ts, lines 614-664): for every capability type
and action, remove any prior binding for the identifier and bind a fresh
handler; bindings are created unconditionally for all capability types.
Returns the feature record and the updated handler table. -/
def registerIpcHandlers (name : String) (bound : List String) :
    Feature × List String :=
  let newBound := (allEventNames name).foldl
    (fun b e => (b.filter (fun x => x ≠ e)) ++ [e]) bound
  (⟨name, actionMap name "tools", actionMap name "prompts",
    actionMap name "resources", none, none, none, none, none⟩, newBound)

/-- cleanServerConfig (main.ts, lines 445-450): strip the internal-only
type field before persisting. -/
def cleanServerConfig (cfg : ServerConfig) : ServerConfig :=
  { cfg with type := none }

/-- The 30-second initialization timeout (main.ts, 30000 ms). -/
def initTimeoutMs : Nat := 30000

/-- Per-provider oracle: how long its initialization takes (ms) and how its
connect attempts turn out. -/
structure EntryOracle where
  initTime : Nat
  connect : ConnectOracle
deriving DecidableEq

/-- Promise.race of initializeClient against the 30-second timer: the timer
wins exactly when initialization takes at least initTimeoutMs. -/
def raceOutcome (name : String) (cfg : ServerConfig) (o : EntryOracle) :
    Except String InitializedClient :=
  if initTimeoutMs ≤ o.initTime then
    Except.error ("Initialization of client for " ++ name ++ " timed out after 30 seconds")
  else
    initializeClient name cfg o.connect

/-- A successfully initialized provider, as collected by initClient. -/
structure ClientObj where
  name : String
  client : InitializedClient
deriving DecidableEq

/-- The settled outcome of every configured entry, in order: the
Promise.allSettled of the per-entry races. -/
def initResults (l : List (String × ServerConfig)) (o : String → EntryOracle) :
    List (String × Except String InitializedClient) :=
  l.map (fun p => (p.1, raceOutcome p.1 p.2 (o p.1)))

/-- The fulfilled results, kept in order. -/
def fulfilledClients (rs : List (String × Except String InitializedClient)) :
    List ClientObj :=
  rs.filterMap (fun p =>
    match p.2 with
    | Except.ok c => some ⟨p.1, c⟩
    | Except.error _ => none)

/-- The number of rejected results. -/
def rejectedCount (rs : List (String × Except String InitializedClient)) : Nat :=
  (rs.filter (fun p =>
    match p.2 with
    | Except.error _ => true
    | Except.ok _ => false)).length

/-- initClient (main.ts, lines 452-528): race every configured entry against
the 30-second timeout under Promise.allSettled, and partition the outcomes
into the fulfilled clients and the rejected count. -/
def initClient (doc : Option ConfigDoc) (o : String → EntryOracle) :
    List ClientObj × Nat :=
  match doc with
  | none => ([], 0)
  | some d =>
    if d.mcpServers.isEmpty then ([], 0)
    else
      let rs := initResults d.mcpServers o
      (fulfilledClients rs, rejectedCount rs)

/-- Structured result of the add and delete IPC handlers. -/
structure OpResult where
  success : Bool
  message : String
  feature : Option Feature
deriving DecidableEq

/-- Oracle for one add-provider call: the race timing, the connect outcomes,
and whether writing config.json succeeds. -/
structure AddOracle where
  initTime : Nat
  connect : ConnectOracle
  saveOk : Bool
deriving DecidableEq

/-- The initialize-mcp-server IPC handler (main.ts, lines 812-893): reject a
duplicate name; otherwise race initialization against the timeout; on
success bind handlers, extend the features list, and persist the cleaned
config (overwriting any persisted entry of that name); on any failure return
a structured failure with the state unchanged. -/
def addServer (st : MainState) (name : String) (cfg : ServerConfig)
    (o : AddOracle) : MainState × OpResult :=
  if (st.features.findIdx? (fun f => f.name == name)).isSome then
    (st, ⟨false, "Server already exists", none⟩)
  else
    match raceOutcome name cfg ⟨o.initTime, o.connect⟩ with
    | Except.error e => (st, ⟨false, "Failed to initialize server: " ++ e, none⟩)
    | Except.ok client =>
      let rb := registerIpcHandlers name st.bound
      let feat1 :=
        match client with
        | InitializedClient.http u =>
          { rb.1 with type := some "http", url := some u, config := some cfg }
        | InitializedClient.loc _ _ _ =>
          { rb.1 with type := some "local", command := cfg.command,
                      args := cfg.args, config := some cfg }
      let doc1 :=
        match st.configDoc with
        | none => none
        | some d =>
          if o.saveOk then
            some ⟨setAssoc d.mcpServers name (cleanServerConfig cfg)⟩
          else some d
      ({ features := st.features ++ [feat1], configDoc := doc1, bound := rb.2 },
       ⟨true, "Server " ++ name ++ " initialized successfully", some feat1⟩)

/-- The delete-mcp-server IPC handler (main.ts, lines 896-933): splice the
feature at the first matching index out of the registry and delete the
persisted entry when present; an absent name yields a structured failure
with no change. The bound handler table is not touched. -/
def deleteServer (st : MainState) (name : String) (saveOk : Bool) :
    MainState × OpResult :=
  match st.features.findIdx? (fun f => f.name == name) with
  | none => (st, ⟨false, "Server not found", none⟩)
  | some i =>
    let features1 := st.features.eraseIdx i
    let doc1 :=
      match st.configDoc with
      | none => none
      | some d =>
        if (d.mcpServers.lookup name).isSome then
          (if saveOk then some ⟨removeAssoc d.mcpServers name⟩ else some d)
        else some d
    ({ features := features1, configDoc := doc1, bound := st.bound },
     ⟨true, "Server " ++ name ++ " deleted successfully", none⟩)

/-! ## Sync bridge (src/preload/preload.ts) -/

/-- One UI-mirror entry (a value of window.mcpServers). httpTools holds the
base url when the tools sub-object is the pair of direct HTTP closures; the
other fields are the IPC method maps created by createAPIMethods. -/
structure MirrorEntry where
  httpTools : Option String
  tools : Option (List (String × String))
  prompts : Option (List (String × String))
  resources : Option (List (String × String))
deriving DecidableEq

/-- The UI mirror: window.mcpServers as an ordered association list. -/
abbrev Mirror : Type := List (String × MirrorEntry)

/-- A mirror entry with no sub-objects yet. -/
def emptyEntry : MirrorEntry := ⟨none, none, none, none⟩

/-- createAPIMethods: the IPC method map keyed like the feature map, each
method invoking the bound identifier. -/
def createAPIMethods (fs : List (String × Json)) : List (String × String) :=
  fs.map (fun p =>
    (p.1, match p.2 with
          | Json.str s => s
          | _ => ""))

/-- JavaScript truthiness of an optional string field (the empty string is
falsy). -/
def truthyStr : Option String → Option String
  | some u => if u = "" then none else some u
  | none => none

/-- Processing of one client by updateMcpServersAPI (preload.ts, lines
104-181): skip existing entries unless rebuilding fully; an http-typed
client with a url gets the direct-HTTP tools entry, replacing the whole
entry; otherwise a tools object installs IPC methods; prompts and resources
are installed only for non-http clients. -/
def clientStep (fullRebuild : Bool) (m : Mirror) (c : Json) : Mirror :=
  let name := (jsonGetStr c "name").getD ""
  let ctype := jsonGetStr c "type"
  let url := truthyStr (jsonGetStr c "url")
  if ¬fullRebuild ∧ (m.lookup name).isSome then m
  else
    let m1 :=
      match ctype, url with
      | some "http", some u => setAssoc m name ⟨some u, none, none, none⟩
      | _, _ =>
        match jsonGetObj c "tools" with
        | some fs =>
          let m0 := if (m.lookup name).isSome then m else m ++ [(name, emptyEntry)]
          m0.map (fun p =>
            if p.1 == name then (p.1, { p.2 with tools := some (createAPIMethods fs) }) else p)
        | none => m
    let m2 :=
      match jsonGetObj c "prompts" with
      | some fs =>
        if ctype ≠ some "http" then
          let m0 := if (m1.lookup name).isSome then m1 else m1 ++ [(name, emptyEntry)]
          m0.map (fun p =>
            if p.1 == name then (p.1, { p.2 with prompts := some (createAPIMethods fs) }) else p)
        else m1
      | none => m1
    match jsonGetObj c "resources" with
    | some fs =>
      if ctype ≠ some "http" then
        let m0 := if (m2.lookup name).isSome then m2 else m2 ++ [(name, emptyEntry)]
        m0.map (fun p =>
          if p.1 == name then (p.1, { p.2 with resources := some (createAPIMethods fs) }) else p)
      else m2
    | none => m2

/-- updateMcpServersAPI (preload.ts, lines 73-184): on a full rebuild first
clear every mirrored entry, then process the listed clients in order. -/
def updateMcpServersAPI (fullRebuild : Bool) (clients : List Json) (m : Mirror) :
    Mirror :=
  clients.foldl (clientStep fullRebuild) (if fullRebuild then [] else m)

/-- The empty-result shape returned by the HTTP tools.list closure on a
failed request. -/
def emptyToolsResult : Json := Json.obj [("tools", Json.arr [])]

/-- The tools.list call on a mirror entry. For the direct-HTTP closures the
fetch outcome is an oracle; a failure degrades to the empty-result shape
(preload.ts, lines 127-138) and the call always returns (never throws). For
IPC entries the bound method is invoked. -/
def entryToolsList (e : MirrorEntry) (httpFetch : Except String Json)
    (ipcInvoke : String → Json) : Option Json :=
  match e.httpTools with
  | some _ =>
    some (match httpFetch with
          | Except.ok j => j
          | Except.error _ => emptyToolsResult)
  | none =>
    match e.tools with
    | some ms => (ms.lookup "list").map ipcInvoke
    | none => none

/-- The changed-server detection of getServers (preload.ts, lines 237-248):
a configured name is changed when no client of that name is listed, or when
the compact serialization of the whole client record differs from that of
the configured entry. -/
def computeChanged (config : Json) (clients : List Json) : List String :=
  (jsonKeys config).filter (fun n =>
    match clients.find? (fun c => jsonGetStr c "name" == some n) with
    | none => true
    | some c => jsonToString c != jsonToString ((jsonGet config n).getD Json.null))

/-- The deleted-server detection of getServers (preload.ts, line 251): the
listed client names no longer present among the configured names. -/
def computeDeleted (config : Json) (clients : List Json) : List String :=
  (clients.map (fun c => (jsonGetStr c "name").getD "")).filter
    (fun n => !(jsonKeys config).contains n)

/-- Sync-bridge state: the mirror, the last observed configuration hash (the
empty string before the first sync), the locally tracked initialized-server
names, the Idle/Syncing flag, and the recovery slot in localStorage. -/
structure PreState where
  mirror : Mirror
  lastConfigHash : String
  trackedServers : List String
  isSyncing : Bool
  backup : Option String
deriving DecidableEq

/-- Where, if anywhere, the sync flow throws after entering the
hash-mismatch branch: during the initialize-mcp-clients invocation or during
the incremental mirror update. -/
inductive ThrowPoint where
  | atInit : ThrowPoint
  | atUpdate : ThrowPoint
deriving DecidableEq

/-- The observable effects of one sync flow, in order. -/
inductive Effect where
  | getConfig : Effect
  | listClients : Effect
  | setBackup : String → Effect
  | initClients : List String → Effect
  | updateAPI : Bool → Effect
deriving DecidableEq

/-- Oracle for one sync: the configuration document returned by
get-mcp-config, the client lists returned by list-clients before and after
reinitialization, whether and where the flow throws, and how the recovery
rebuild turns out. -/
structure SyncWorld where
  config : Json
  clients : List Json
  clientsAfterInit : List Json
  throwPoint : Option ThrowPoint
  recoveryClients : List Json
  recoveryFails : Bool

/-- The catch block of getServers (preload.ts, lines 291-306): when a
recovery snapshot exists, attempt one full mirror rebuild (its own failure
is recorded, not retried); always return the best-available mirror. -/
def recoverFromError (w : SyncWorld) (s : PreState) (effs : List Effect) :
    PreState × List Effect × Mirror :=
  match s.backup with
  | none => (s, effs, s.mirror)
  | some _ =>
    if w.recoveryFails then (s, effs, s.mirror)
    else
      let m := updateMcpServersAPI true w.recoveryClients s.mirror
      ({ s with mirror := m }, effs ++ [Effect.updateAPI true], m)

/-- The try block of getServers (preload.ts, lines 213-290): hash the
serialized configuration; on a hash match return the mirror unchanged;
otherwise clean up deleted servers, then either reinitialize exactly the
changed servers (snapshotting the configuration first) or just advance the
hash; on a throw fall into the catch block. The Syncing flag is managed by
the caller. -/
def getServersTry (w : SyncWorld) (s0 : PreState) :
    PreState × List Effect × Mirror :=
  let cfgStr := jsonStringifyPretty w.config
  let h := calculateConfigHash cfgStr
  let effs0 := [Effect.getConfig, Effect.listClients]
  if h = s0.lastConfigHash then (s0, effs0, s0.mirror)
  else
    let changed := computeChanged w.config w.clients
    let deleted := computeDeleted w.config w.clients
    let mirror1 := s0.mirror.filter (fun p => !deleted.contains p.1)
    let tracked1 := s0.trackedServers.filter (fun n => !deleted.contains n)
    let s1 := { s0 with mirror := mirror1, trackedServers := tracked1 }
    if changed.isEmpty then
      let s2 := { s1 with lastConfigHash := h }
      let s3 := { s2 with trackedServers := s2.mirror.map Prod.fst }
      (s3, effs0, s3.mirror)
    else
      let s2 := { s1 with backup := some cfgStr }
      let effs1 := effs0 ++ [Effect.setBackup cfgStr, Effect.initClients changed]
      match w.throwPoint with
      | some ThrowPoint.atInit => recoverFromError w s2 effs1
      | some ThrowPoint.atUpdate => recoverFromError w s2 effs1
      | none =>
        let mirror2 := updateMcpServersAPI false w.clientsAfterInit s2.mirror
        let s3 := { s2 with mirror := mirror2, lastConfigHash := h }
        let s4 := { s3 with trackedServers := s3.mirror.map Prod.fst }
        (s4, effs1 ++ [Effect.updateAPI false], s4.mirror)

/-- getServers (preload.ts, lines 201-310): a call while a sync is in flight
returns the current mirror with no work; otherwise the flag is set on entry,
the try/catch body runs, and the finally block clears the flag on every exit
path. -/
def getServers (w : SyncWorld) (s : PreState) :
    PreState × List Effect × Mirror :=
  if s.isSyncing then (s, [], s.mirror)
  else
    let r := getServersTry w { s with isSyncing := true }
    ({ r.1 with isSyncing := false }, r.2.1, r.2.2)

/-! ## Concrete instances used in the theorems below -/

/-- A local provider config: command only. -/
def cfgA : ServerConfig := ⟨none, none, some "cmd-a", none, none⟩

/-- A second local provider config. -/
def cfgB : ServerConfig := ⟨none, none, some "cmd-b", none, none⟩

/-- A third local provider config. -/
def cfgC : ServerConfig := ⟨none, none, some "cmd-c", none, none⟩

/-- A config carrying an explicit local type marker together with a url. -/
def cfgC6 : ServerConfig := ⟨some "local", some "http://h", some "c", none, none⟩

/-- A config with neither command nor url. -/
def cfgBare : ServerConfig := ⟨none, none, none, none, none⟩

/-- Connect attempts that succeed. -/
def connOk : ConnectOracle := ⟨Except.ok (), Except.ok ()⟩

/-- An add-provider oracle: fast initialization, successful save. -/
def oA : AddOracle := ⟨0, connOk, true⟩

/-- The controller state with an empty registry and an empty persisted
document. -/
def st0 : MainState := ⟨[], some ⟨[]⟩, []⟩

/-- The controller state after provider a has been added. -/
def stA : MainState := (addServer st0 "a" cfgA oA).1

/-- A three-provider configuration document. -/
def dW : ConfigDoc := ⟨[("a", cfgA), ("b", cfgB), ("c", cfgC)]⟩

/-- Bulk-initialization oracle under which provider b exceeds the timeout
and the others settle quickly. -/
def oW : String → EntryOracle :=
  fun n => if n == "b" then ⟨40000, connOk⟩ else ⟨5, connOk⟩

/-- The persisted configuration document holding only alpha. -/
def cfgAlphaJson : Json :=
  Json.obj [("alpha", Json.obj [("command", Json.str "tool-alpha")])]

/-- The registry record for alpha as list-clients returns it, whose stored
config field equals the persisted alpha entry. -/
def clientAlphaJson : Json :=
  Json.obj [("name", Json.str "alpha"), ("type", Json.str "local"),
            ("tools", Json.obj [("list", Json.str "alpha-tools/list"),
                                ("call", Json.str "alpha-tools/call")]),
            ("config", Json.obj [("command", Json.str "tool-alpha")])]

/-- An HTTP provider record as list-clients returns it. -/
def clientY : Json :=
  Json.obj [("name", Json.str "y"), ("type", Json.str "http"),
            ("url", Json.str "http://y")]

/-- A sync oracle whose configuration names only x, whose
initialize-mcp-clients invocation throws, and whose registry lists only the
HTTP provider y at recovery time. -/
def wC7 : SyncWorld :=
  ⟨Json.obj [("x", Json.obj [("command", Json.str "cx")])], [], [],
   some ThrowPoint.atInit, [clientY], false⟩

/-- A sync oracle over the empty configuration with no failures. -/
def wEmpty : SyncWorld := ⟨Json.obj [], [], [], none, [], false⟩

/-- A sync-bridge state with a sync already in flight. -/
def sBusy : PreState := ⟨[("old", emptyEntry)], "", [], true, none⟩

/-- A controller state with an empty registry whose persisted document
already holds a beta entry. -/
def st0beta : MainState := ⟨[], some ⟨[("beta", cfgC)]⟩, []⟩

/-- The initial sync-bridge state. -/
def sIdle : PreState := ⟨[], "", [], false, none⟩

/-! ## Helper lemmas -/

theorem getServers_busy (w : SyncWorld) (s : PreState) (h : s.isSyncing = true) :
    getServers w s = (s, [], s.mirror) := by
  simp [getServers, h]

theorem getServers_idle_eq (w : SyncWorld) (s : PreState) (h : s.isSyncing = false) :
    getServers w s =
      (let r := getServersTry w { s with isSyncing := true }
       ({ r.1 with isSyncing := false }, r.2.1, r.2.2)) := by
  simp [getServers, h]

theorem getServers_resets (w : SyncWorld) (s : PreState) (h : s.isSyncing = false) :
    (getServers w s).1.isSyncing = false := by
  rw [getServers_idle_eq w s h]

theorem getServersTry_lastHash (w : SyncWorld) (s0 : PreState)
    (hok : w.throwPoint = none) :
    (getServersTry w s0).1.lastConfigHash =
      calculateConfigHash (jsonStringifyPretty w.config) := by
  unfold getServersTry
  dsimp only
  split
  next heq => exact heq.symm
  next =>
    split
    next => rfl
    next =>
      rw [hok]

theorem getServers_lastHash (w : SyncWorld) (s : PreState)
    (hidle : s.isSyncing = false) (hok : w.throwPoint = none) :
    (getServers w s).1.lastConfigHash =
      calculateConfigHash (jsonStringifyPretty w.config) := by
  rw [getServers_idle_eq w s hidle]
  exact getServersTry_lastHash w _ hok

theorem getServers_hashMatch (w : SyncWorld) (s : PreState)
    (hidle : s.isSyncing = false)
    (hh : calculateConfigHash (jsonStringifyPretty w.config) = s.lastConfigHash) :
    getServers w s = (s, [Effect.getConfig, Effect.listClients], s.mirror) := by
  obtain ⟨m, lh, ts, ii, bk⟩ := s
  simp only at hidle
  subst hidle
  simp [getServers, getServersTry, hh]

/-- Claim C2: a sync call while one is in flight performs no provider work
and returns the current mirror unchanged; otherwise the flag is set to
Syncing on entry (the body runs on the flag-raised state) and the flag is
back to Idle on every exit path before the call returns. -/
theorem getServers_single_flow (w : SyncWorld) (s : PreState) :
    (s.isSyncing = true → getServers w s = (s, [], s.mirror)) ∧
    (s.isSyncing = false →
      getServers w s =
        (let r := getServersTry w { s with isSyncing := true }
         ({ r.1 with isSyncing := false }, r.2.1, r.2.2)) ∧
      (getServers w s).1.isSyncing = false) := by
  constructor
  · intro h
    exact getServers_busy w s h
  · intro h
    exact ⟨getServers_idle_eq w s h, getServers_resets w s h⟩

/-- Witness for C2 at concrete states: a busy call is a no-op returning the
stale mirror, and an idle call ends with the flag back at Idle. -/
theorem getServers_single_flow_witness :
    getServers wEmpty sBusy = (sBusy, [], sBusy.mirror) ∧
    (getServers wEmpty sIdle).1.isSyncing = false :=
  ⟨(getServers_single_flow wEmpty sBusy).1 rfl,
   ((getServers_single_flow wEmpty sIdle).2 rfl).2⟩

/-- Claim C3: after a sync completes without an exception, a second sync
over the same configuration computes the same hash, takes the hash-match
early return, performs zero provider reinitializations, and returns the
mirror unchanged. -/
theorem getServers_second_sync_noop (w1 w2 : SyncWorld) (s : PreState)
    (hidle : s.isSyncing = false) (hok : w1.throwPoint = none)
    (hcfg : w2.config = w1.config) :
    getServers w2 (getServers w1 s).1 =
      ((getServers w1 s).1, [Effect.getConfig, Effect.listClients],
       (getServers w1 s).1.mirror) ∧
    (∀ ns, Effect.initClients ns ∉ (getServers w2 (getServers w1 s).1).2.1) := by
  have h1 : (getServers w1 s).1.isSyncing = false := getServers_resets w1 s hidle
  have h2 : calculateConfigHash (jsonStringifyPretty w2.config) =
      (getServers w1 s).1.lastConfigHash := by
    rw [hcfg, getServers_lastHash w1 s hidle hok]
  have h3 := getServers_hashMatch w2 (getServers w1 s).1 h1 h2
  refine ⟨h3, ?_⟩
  intro ns
  rw [h3]
  simp

/-- Witness for C3: over the empty configuration, a second sync after a
completed first one is exactly the hash-match no-op. -/
theorem getServers_second_sync_noop_witness :
    getServers wEmpty (getServers wEmpty sIdle).1 =
      ((getServers wEmpty sIdle).1, [Effect.getConfig, Effect.listClients],
       (getServers wEmpty sIdle).1.mirror) :=
  (getServers_second_sync_noop wEmpty wEmpty sIdle rfl rfl rfl).1

set_option maxRecDepth 8000

/-- Claim C7, counterexample to the claim as stated: when the sync flow
throws, the mirror is rebuilt from the live registry (list-clients), not
from the recovery snapshot. Here the snapshot saved during the failing call
names only provider x, yet the returned mirror holds exactly provider y,
the one listed by the registry at recovery time. -/
theorem recovery_not_from_snapshot_counterexample :
    (getServers wC7 sIdle).1.backup = some (jsonStringifyPretty wC7.config) ∧
    jsonKeys wC7.config = ["x"] ∧
    (getServers wC7 sIdle).2.2.map Prod.fst = ["y"] ∧
    wC7.recoveryClients.map (fun c => (jsonGetStr c "name").getD "") = ["y"] := by
  refine ⟨rfl, rfl, ?_, rfl⟩
  rfl

/-- Claim C7 as amended: on an exception after the hash-mismatch branch is
entered, the bridge attempts one full mirror rebuild from the current
registry state, gated on the existence of the recovery snapshot it has just
saved; the recovery is best-effort (its own failure leaves the mirror as it
was, with no retry), the hash is not advanced, the flag returns to Idle, and
the call returns the best-available mirror instead of propagating. -/
theorem getServers_recovery (w : SyncWorld) (s : PreState)
    (hidle : s.isSyncing = false)
    (hthrow : w.throwPoint = some ThrowPoint.atInit ∨
              w.throwPoint = some ThrowPoint.atUpdate)
    (hmis : calculateConfigHash (jsonStringifyPretty w.config) ≠ s.lastConfigHash)
    (hch : (computeChanged w.config w.clients).isEmpty = false) :
    getServers w s =
      (let cfgStr := jsonStringifyPretty w.config
       let deleted := computeDeleted w.config w.clients
       let mirror1 := s.mirror.filter (fun p => !deleted.contains p.1)
       let tracked1 := s.trackedServers.filter (fun n => !deleted.contains n)
       let recovered := if w.recoveryFails then mirror1
                        else updateMcpServersAPI true w.recoveryClients mirror1
       let effs := [Effect.getConfig, Effect.listClients, Effect.setBackup cfgStr,
                    Effect.initClients (computeChanged w.config w.clients)] ++
                   (if w.recoveryFails then [] else [Effect.updateAPI true])
       (⟨recovered, s.lastConfigHash, tracked1, false, some cfgStr⟩, effs, recovered)) := by
  obtain ⟨m, lh, ts, ii, bk⟩ := s
  simp only at hidle hmis
  subst hidle
  rcases hthrow with h | h <;>
    by_cases hrf : w.recoveryFails <;>
      simp [getServers, getServersTry, recoverFromError, hmis, hch, h, hrf]

/-- Witness for C7 at a concrete failing sync: the returned state has the
flag back at Idle and the snapshot in the recovery slot. -/
theorem getServers_recovery_witness :
    (getServers wC7 sIdle).1.isSyncing = false ∧
    (getServers wC7 sIdle).1.backup = some (jsonStringifyPretty wC7.config) ∧
    (getServers wC7 sIdle).1.lastConfigHash = sIdle.lastConfigHash := by
  have h := getServers_recovery wC7 sIdle rfl (Or.inl rfl) (by decide) rfl
  rw [h]
  exact ⟨rfl, rfl, rfl⟩

/-- Claim C9: for every HTTP-transport provider mirrored by the sync bridge
(an entry whose tools are the direct-HTTP closures), a tools list call whose
underlying HTTP request fails returns the empty-result shape, and the call
always returns rather than throwing. -/
theorem http_list_degrades (full : Bool) (clients : List Json) (m : Mirror)
    (n : String) (e : MirrorEntry) (u : String)
    (_hm : (updateMcpServersAPI full clients m).lookup n = some e)
    (hh : e.httpTools = some u) :
    ∀ err ipc, entryToolsList e (Except.error err) ipc = some emptyToolsResult := by
  intro err ipc
  unfold entryToolsList
  rw [hh]

/-- Witness for C9: the mirror built for the HTTP provider y degrades a
refused connection on tools list to the empty-result shape. -/
theorem http_list_degrades_witness :
    entryToolsList ⟨some "http://y", none, none, none⟩
      (Except.error "ECONNREFUSED") (fun _ => Json.null) = some emptyToolsResult :=
  http_list_degrades true [clientY] [] "y" ⟨some "http://y", none, none, none⟩
    "http://y" rfl rfl "ECONNREFUSED" (fun _ => Json.null)

/-- Claim C1, evaluation at a failing input: the persisted alpha config is
byte-identical to the config stored in the registry record for alpha, so the
claimed changed set is empty; yet the code compares the serialization of the
whole client record against the config entry and marks alpha changed. The
deleted set is computed as the claim states. -/
theorem changed_detection_failing_input :
    jsonGet clientAlphaJson "config" = jsonGet cfgAlphaJson "alpha" ∧
    (jsonGet clientAlphaJson "config").isSome = true ∧
    computeChanged cfgAlphaJson [clientAlphaJson] = ["alpha"] ∧
    computeDeleted cfgAlphaJson [clientAlphaJson] = [] := by
  exact ⟨rfl, rfl, rfl, rfl⟩

/-- Claim C8: add-provider with a name already in the registry is rejected
with a structured failure and the whole controller state — the existing
entry, its bound identifiers, and the persisted document — is returned
untouched. -/
theorem addServer_duplicate_rejected (st : MainState) (name : String)
    (cfg : ServerConfig) (o : AddOracle)
    (hdup : (st.features.findIdx? (fun f => f.name == name)).isSome = true) :
    addServer st name cfg o = (st, ⟨false, "Server already exists", none⟩) := by
  simp [addServer, hdup]

/-- Witness for C8: re-adding provider a over the state that already holds
it changes nothing and fails. -/
theorem addServer_duplicate_rejected_witness :
    addServer stA "a" cfgB oA = (stA, ⟨false, "Server already exists", none⟩) :=
  addServer_duplicate_rejected stA "a" cfgB oA (by decide)

/-- Claim C4, counterexample to the claim as stated: after a successful
delete of provider a, every one of its capability handlers is still bound —
the delete removes the registry entry and the persisted entry but unbinds
nothing. -/
theorem deleteServer_keeps_handlers_counterexample :
    (deleteServer stA "a" true).2.success = true ∧
    (deleteServer stA "a" true).1.features = [] ∧
    (deleteServer stA "a" true).1.configDoc = some ⟨[]⟩ ∧
    (deleteServer stA "a" true).1.bound.contains (eventName "a" "tools" "list") = true ∧
    (deleteServer stA "a" true).1.bound = stA.bound := by
  exact ⟨rfl, rfl, rfl, rfl, rfl⟩

/-- Claim C4 as amended: deleting a present name removes the registry entry
at its index and the persisted entry when one exists, returns success, and
leaves the bound capability handlers registered (they are replaced only when
a provider is later re-added under the same name); an absent name yields a
structured failure with no change at all. -/
theorem deleteServer_spec (st : MainState) (name : String) (saveOk : Bool) :
    (st.features.findIdx? (fun f => f.name == name) = none →
       deleteServer st name saveOk = (st, ⟨false, "Server not found", none⟩)) ∧
    (∀ i, st.features.findIdx? (fun f => f.name == name) = some i → saveOk = true →
       (deleteServer st name saveOk).2.success = true ∧
       (deleteServer st name saveOk).1.features = st.features.eraseIdx i ∧
       (deleteServer st name saveOk).1.bound = st.bound ∧
       (∀ d, st.configDoc = some d → (d.mcpServers.lookup name).isSome = true →
          (deleteServer st name saveOk).1.configDoc =
            some ⟨removeAssoc d.mcpServers name⟩) ∧
       (∀ d, st.configDoc = some d → d.mcpServers.lookup name = none →
          (deleteServer st name saveOk).1.configDoc = some d)) := by
  constructor
  · intro h
    simp [deleteServer, h]
  · intro i hi hs
    refine ⟨?_, ?_, ?_, ?_, ?_⟩
    · simp [deleteServer, hi]
    · simp [deleteServer, hi]
    · simp [deleteServer, hi]
    · intro d hd hl
      simp [deleteServer, hi, hd, hl, hs]
    · intro d hd hl
      simp [deleteServer, hi, hd, hl]

/-- Witness for C4: deleting the absent name b from the one-provider state
is a rejected no-op, and deleting the present name a succeeds while leaving
the handler table intact. -/
theorem deleteServer_spec_witness :
    deleteServer stA "b" true = (stA, ⟨false, "Server not found", none⟩) ∧
    ((deleteServer stA "a" true).2.success = true ∧
     (deleteServer stA "a" true).1.bound = stA.bound) := by
  refine ⟨(deleteServer_spec stA "b" true).1 (by decide), ?_⟩
  have h := (deleteServer_spec stA "a" true).2 0 (by decide) rfl
  exact ⟨h.1, h.2.2.1⟩

theorem fulfilled_rejected_length (rs : List (String × Except String InitializedClient)) :
    (fulfilledClients rs).length + rejectedCount rs = rs.length := by
  induction rs with
  | nil => rfl
  | cons p t ih =>
    obtain ⟨n, r⟩ := p
    cases r <;>
      simp [fulfilledClients, rejectedCount, List.filter_cons] at ih ⊢ <;>
        omega

/-- Claim C5: bulk initialization races every configured entry against the
fixed 30-second timeout, isolates failures per provider (an entry succeeds
exactly when its own race does, whatever happens to the others), settles
every entry, and partitions the entries into the succeeded list and the
failed count. -/
theorem initClient_partition (d : ConfigDoc) (o : String → EntryOracle)
    (hne : d.mcpServers ≠ []) :
    (initClient (some d) o).1.length + (initClient (some d) o).2 =
      d.mcpServers.length ∧
    (∀ n cfg c, (n, cfg) ∈ d.mcpServers →
       raceOutcome n cfg (o n) = Except.ok c →
       ClientObj.mk n c ∈ (initClient (some d) o).1) ∧
    (∀ co, co ∈ (initClient (some d) o).1 →
       ∃ cfg, (co.name, cfg) ∈ d.mcpServers ∧
         raceOutcome co.name cfg (o co.name) = Except.ok co.client) ∧
    (∀ n cfg eo, initTimeoutMs ≤ eo.initTime →
       raceOutcome n cfg eo =
         Except.error ("Initialization of client for " ++ n ++
           " timed out after 30 seconds")) := by
  have hemp : d.mcpServers.isEmpty = false := by
    cases h : d.mcpServers with
    | nil => exact absurd h hne
    | cons a t => rfl
  have hinit : initClient (some d) o =
      (fulfilledClients (initResults d.mcpServers o),
       rejectedCount (initResults d.mcpServers o)) := by
    simp [initClient, hemp]
  refine ⟨?_, ?_, ?_, ?_⟩
  · rw [hinit]
    have := fulfilled_rejected_length (initResults d.mcpServers o)
    simpa [initResults] using this
  · intro n cfg c hmem hrace
    rw [hinit]
    apply List.mem_filterMap.mpr
    refine ⟨(n, raceOutcome n cfg (o n)), ?_, ?_⟩
    · exact List.mem_map_of_mem _ hmem
    · rw [hrace]
  · intro co hco
    rw [hinit] at hco
    obtain ⟨⟨n, r⟩, hmem, hsome⟩ := List.mem_filterMap.mp hco
    obtain ⟨⟨n2, cfg⟩, hin, heq⟩ := List.mem_map.mp hmem
    cases r with
    | error e => simp at hsome
    | ok c =>
      simp at hsome
      obtain ⟨hn, hc⟩ : n = co.name ∧ c = co.client := by
        cases hsome
        exact ⟨rfl, rfl⟩
      simp at heq
      obtain ⟨hn2, hr⟩ := heq
      subst hn2
      subst hn
      subst hc
      exact ⟨cfg, hin, hr⟩
  · intro n cfg eo h
    simp [raceOutcome, h]

/-- Witness for C5 on the three-provider document where provider b exceeds
the timeout: the outcomes partition all three entries, and provider a both
races successfully and appears in the succeeded list. -/
theorem initClient_partition_witness :
    (initClient (some dW) oW).1.length + (initClient (some dW) oW).2 =
      dW.mcpServers.length ∧
    ClientObj.mk "a" (InitializedClient.loc "a" "cmd-a" []) ∈
      (initClient (some dW) oW).1 :=
  ⟨(initClient_partition dW oW (by decide)).1,
   (initClient_partition dW oW (by decide)).2.1 "a" cfgA
     (InitializedClient.loc "a" "cmd-a" []) (by decide) (by decide)⟩

/-- Claim C6, counterexample to the claim as stated: with an explicit local
type marker but a url also present, the transport kind is not taken from the
type field — the url wins and an HTTP client is produced. -/
theorem transport_selection_counterexample :
    cfgC6.type = some "local" ∧
    initializeClient "s" cfgC6 connOk =
      Except.ok (InitializedClient.http "http://h") :=
  ⟨rfl, rfl⟩

theorem initializeClient_bare_not_ok (name : String) (t : Option String)
    (a : Option (List String)) (e : Option (List (String × String)))
    (o : ConnectOracle) (r : InitializedClient) :
    initializeClient name ⟨t, none, none, a, e⟩ o ≠ Except.ok r := by
  intro hr
  unfold initializeClient at hr
  simp only [Option.isSome_none, Bool.false_eq_true, or_false, if_false] at hr
  split at hr
  · simp at hr
  · split at hr
    · simp at hr
    · simp at hr

/-- Claim C6 as amended: the HTTP branch is selected when the explicit type
is http or sse or when a url is present (a present url overrides an explicit
local type); with no url the local branch requires a command; a config with
neither command nor url always fails validation before any client is
constructed, and add-provider on such a config returns a failure result with
the registry and the persisted document unchanged. -/
theorem initializeClient_selection (name : String) (cfg : ServerConfig)
    (o : ConnectOracle) :
    (cfg.url = none → cfg.command = none →
       ∃ msg, initializeClient name cfg o = Except.error msg) ∧
    (∀ u, cfg.url = some u → ∀ r, initializeClient name cfg o = Except.ok r →
       r = InitializedClient.http u) ∧
    (cfg.url = none → ∀ r, initializeClient name cfg o = Except.ok r →
       ∃ cmd, cfg.command = some cmd ∧
         r = InitializedClient.loc name cmd (cfg.args.getD [])) ∧
    (∀ (st : MainState) (ao : AddOracle), cfg.url = none → cfg.command = none →
       (addServer st name cfg ⟨ao.initTime, o, ao.saveOk⟩).1 = st ∧
       (addServer st name cfg ⟨ao.initTime, o, ao.saveOk⟩).2.success = false) := by
  obtain ⟨t, u, c, a, e⟩ := cfg
  have herr : u = none → c = none →
      ∃ msg, initializeClient name ⟨t, u, c, a, e⟩ o = Except.error msg := by
    intro hu hc
    subst hu
    subst hc
    cases hx : initializeClient name ⟨t, none, none, a, e⟩ o with
    | error m => exact ⟨m, rfl⟩
    | ok r => exact absurd hx (initializeClient_bare_not_ok name t a e o r)
  refine ⟨herr, ?_, ?_, ?_⟩
  · intro u2 hu r hr
    simp only at hu
    subst hu
    unfold initializeClient at hr
    simp only [Option.isSome_some, or_true, if_true] at hr
    cases ho : o.httpConnect <;> rw [ho] at hr <;> simp at hr
    exact hr.symm
  · intro hu r hr
    simp only at hu
    subst hu
    unfold initializeClient at hr
    simp only [Option.isSome_none, Bool.false_eq_true, or_false, if_false] at hr
    split at hr
    · simp at hr
    · split at hr
      · cases c with
        | none => simp at hr
        | some cmd =>
          cases ho : o.localConnect <;> rw [ho] at hr <;> simp at hr
          exact ⟨cmd, rfl, hr.symm⟩
      · simp at hr
  · intro st ao hu hc
    simp only at hu hc
    subst hu
    subst hc
    have hnotok : ∀ cl, raceOutcome name ⟨t, none, none, a, e⟩
        ⟨ao.initTime, o⟩ ≠ Except.ok cl := by
      intro cl hok2
      unfold raceOutcome at hok2
      split at hok2
      · simp at hok2
      · exact initializeClient_bare_not_ok name t a e o cl hok2
    cases hx : raceOutcome name ⟨t, none, none, a, e⟩ ⟨ao.initTime, o⟩ with
    | ok cl => exact absurd hx (hnotok cl)
    | error m2 =>
      by_cases hdup :
          (st.features.findIdx? (fun f => f.name == name)).isSome = true <;>
        simp [addServer, hdup, hx]

/-- Witness for C6: the bare config fails initialization, and add-provider
on it leaves the controller state untouched with a failure result. -/
theorem initializeClient_selection_witness :
    (∃ msg, initializeClient "z" cfgBare connOk = Except.error msg) ∧
    (addServer stA "z" cfgBare ⟨oA.initTime, connOk, oA.saveOk⟩).1 = stA ∧
    (addServer stA "z" cfgBare ⟨oA.initTime, connOk, oA.saveOk⟩).2.success = false := by
  refine ⟨(initializeClient_selection "z" cfgBare connOk).1 rfl rfl, ?_⟩
  exact (initializeClient_selection "z" cfgBare connOk).2.2.2 stA oA rfl rfl

theorem lookup_map_set {α : Type} (t : List (String × α)) (k : String) (v : α)
    (h : (t.lookup k).isSome = true) :
    (t.map (fun p => if p.1 == k then (k, v) else p)).lookup k = some v := by
  induction t with
  | nil => simp [List.lookup] at h
  | cons p tl ih =>
    obtain ⟨x, y⟩ := p
    by_cases hx : x = k
    · subst hx
      simp only [List.map_cons]
      rw [if_pos (beq_self_eq_true x)]
      simp [List.lookup_cons]
    · have hxk : (x == k) = false := beq_eq_false_iff_ne.mpr hx
      have hkx : (k == x) = false := beq_eq_false_iff_ne.mpr (Ne.symm hx)
      simp only [List.lookup_cons, hkx] at h
      simp only [List.map_cons, hxk, Bool.false_eq_true, if_false,
        List.lookup_cons, hkx]
      exact ih h

theorem lookup_append_new {α : Type} (t : List (String × α)) (k : String) (v : α)
    (h : t.lookup k = none) :
    ((t ++ [(k, v)]).lookup k) = some v := by
  induction t with
  | nil => simp [List.lookup_cons]
  | cons p tl ih =>
    obtain ⟨x, y⟩ := p
    cases hkx : (k == x) with
    | true =>
      simp only [List.lookup_cons, hkx] at h
      simp at h
    | false =>
      simp only [List.lookup_cons, hkx] at h
      simp only [List.cons_append, List.lookup_cons, hkx]
      exact ih h

theorem lookup_setAssoc {α : Type} (m : List (String × α)) (k : String) (v : α) :
    (setAssoc m k v).lookup k = some v := by
  unfold setAssoc
  split
  next hsome => exact lookup_map_set m k v hsome
  next hnone =>
    apply lookup_append_new
    exact Option.not_isSome_iff_eq_none.mp hnone

/-- Claim C10: the duplicate check of add-provider consults only the
registry, so a name absent from the registry but present in the persisted
document is not rejected; on successful initialization the call succeeds and
the persisted entry for that name is overwritten with the cleaned new
config. -/
theorem addServer_overwrites_persisted (st : MainState) (name : String)
    (cfg : ServerConfig) (o : AddOracle) (d : ConfigDoc) (pc : ServerConfig)
    (habs : st.features.findIdx? (fun f => f.name == name) = none)
    (hdoc : st.configDoc = some d)
    (hprev : d.mcpServers.lookup name = some pc)
    (hsave : o.saveOk = true)
    (hok : ∃ cl, raceOutcome name cfg ⟨o.initTime, o.connect⟩ = Except.ok cl) :
    (st.features.findIdx? (fun f => f.name == name)).isSome = false ∧
    (d.mcpServers.lookup name).isSome = true ∧
    (addServer st name cfg o).2.success = true ∧
    (addServer st name cfg o).1.configDoc =
      some ⟨setAssoc d.mcpServers name (cleanServerConfig cfg)⟩ ∧
    ((addServer st name cfg o).1.configDoc.map
       (fun dd => dd.mcpServers.lookup name)) =
      some (some (cleanServerConfig cfg)) := by
  obtain ⟨cl, hcl⟩ := hok
  have hsucc : (addServer st name cfg o).2.success = true := by
    cases cl <;> simp [addServer, habs, hcl, hdoc, hsave]
  have hdoc1 : (addServer st name cfg o).1.configDoc =
      some ⟨setAssoc d.mcpServers name (cleanServerConfig cfg)⟩ := by
    cases cl <;> simp [addServer, habs, hcl, hdoc, hsave]
  refine ⟨by simp [habs], by simp [hprev], hsucc, hdoc1, ?_⟩
  rw [hdoc1]
  simp [lookup_setAssoc]

/-- Witness for C10: adding beta while the persisted document already holds
a different beta entry succeeds and overwrites that entry. -/
theorem addServer_overwrites_persisted_witness :
    (addServer st0beta "beta" cfgB oA).2.success = true ∧
    ((addServer st0beta "beta" cfgB oA).1.configDoc.map
       (fun dd => dd.mcpServers.lookup "beta")) =
      some (some (cleanServerConfig cfgB)) := by
  have h := addServer_overwrites_persisted st0beta "beta" cfgB oA
    ⟨[("beta", cfgC)]⟩ cfgC (by decide) rfl (by decide) rfl
    ⟨InitializedClient.loc "beta" "cmd-b" [], by decide⟩
  exact ⟨h.2.2.1, h.2.2.2.2⟩
